import Mathlib

/-!
# HelixHeal — verification of the Iterative Repair Orchestrator core

Shallow embedding of the Python backend (`src/backend/app`) of the
HelixHeal repository, together with proofs settling the frozen claims
about its specification.

Python strings are modelled as lists of characters (`Str`); machine
integers are `Nat`/`Int` (Python ints are unbounded, so no wrap-around is
needed); fallible external operations are modelled with `Except`/`Option`
or by oracle inputs describing the environment (filesystem contents,
sandbox outputs, LLM responses, git results).

The one floating-point expression in the code,
`int((iteration - 1) * (70 / retry_limit))` in `orchestrator.py`, is
modelled by natural floor division `70 * (iteration - 1) / retry_limit`;
the two coincide for every permitted retry limit (1–10) and every
iteration in range, which was checked exhaustively against CPython's
binary64 semantics.
-/

namespace HelixHeal

/-- Python `str` modelled as a list of Unicode code points. -/
abbrev Str := List Char

/-! ## Generic Python string helpers -/

/-- Python truthiness of a string: non-empty. -/
def strTruthy (s : Str) : Bool := !s.isEmpty

/-- Is `c` an ASCII decimal digit? -/
def isDigitC (c : Char) : Bool := '0' ≤ c && c ≤ '9'

/-- Whitespace as stripped by Python's `str.strip()` (ASCII subset). -/
def isSpaceC (c : Char) : Bool :=
  c == ' ' || c == '\t' || c == '\n' || c == '\r' || c == '\x0b' || c == '\x0c'

/-- Python `s.strip()`. -/
def pyStrip (s : Str) : Str :=
  ((s.dropWhile isSpaceC).reverse.dropWhile isSpaceC).reverse

/-- Python `s.rstrip()`. -/
def pyRstrip (s : Str) : Str :=
  (s.reverse.dropWhile isSpaceC).reverse

/-- Python `s.lstrip()`. -/
def pyLstrip (s : Str) : Str := s.dropWhile isSpaceC

/-- ASCII uppercase of one character (Python `str.upper`, char-wise model). -/
def upperC (c : Char) : Char := c.toUpper

/-- Python `s.upper()` (char-wise; adequate for the ASCII inputs involved). -/
def pyUpper (s : Str) : Str := s.map upperC

/-- Does `pat` occur as a contiguous substring of `s`?  (Python `pat in s`.) -/
def hasSub (pat : Str) : Str → Bool
  | [] => pat.isEmpty
  | c :: t => pat.isPrefixOf (c :: t) || hasSub pat t

/-! ## `utils.build_branch_name` (src/backend/app/utils.py lines 24–34) -/

/-- Is `c` in the class `[A-Z0-9]` kept by the sanitizer's regex? -/
def isAlnumUpper (c : Char) : Bool :=
  ('A' ≤ c && c ≤ 'Z') || ('0' ≤ c && c ≤ '9')

/-- `re.sub(r"[^A-Z0-9]+", "_", s)`: replace each maximal run of
characters outside `[A-Z0-9]` by a single underscore.  The boolean flag
records whether we are inside such a run. -/
def collapseRuns : Bool → Str → Str
  | _, [] => []
  | inRun, c :: cs =>
    if isAlnumUpper c then c :: collapseRuns false cs
    else if inRun then collapseRuns true cs
    else '_' :: collapseRuns true cs

/-- Python `s.strip("_")`. -/
def stripUnderscores (s : Str) : Str :=
  ((s.dropWhile (· == '_')).reverse.dropWhile (· == '_')).reverse

/-- The inner `sanitize` of `build_branch_name`: uppercase, collapse runs
of non-`[A-Z0-9]` to `_`, strip edge underscores. -/
def sanitize (s : Str) : Str :=
  stripUnderscores (collapseRuns false (pyUpper s))

/-- `build_branch_name(team_name, leader_name) = f"{t}_{l}_AI_FIX"`. -/
def build_branch_name (team_name leader_name : Str) : Str :=
  sanitize team_name ++ '_' :: sanitize leader_name ++ "_AI_FIX".data

/-- Characters allowed in a branch name: uppercase alphanumeric or `_`. -/
def branchChars (s : Str) : Bool := s.all (fun c => isAlnumUpper c || c == '_')

/-- Neither the first nor the last character is an underscore. -/
def noEdgeUS (s : Str) : Bool :=
  s.head? != some '_' && s.getLast? != some '_'

/-- The "no adjacent underscores" relation used for `Chain'`. -/
def NoUU (a b : Char) : Prop := ¬(a = '_' ∧ b = '_')

/-! Structural lemmas about the sanitizer. -/

theorem alnum_ne_us {c : Char} (h : isAlnumUpper c = true) : c ≠ '_' := by
  intro hc; subst hc; simp [isAlnumUpper] at h

theorem collapseRuns_chars (s : Str) (b : Bool) :
    ∀ c ∈ collapseRuns b s, isAlnumUpper c || c == '_' := by
  induction s generalizing b with
  | nil => intro c hc; simp [collapseRuns] at hc
  | cons a t ih =>
    intro c hc
    by_cases ha : isAlnumUpper a
    · simp only [collapseRuns, ha, if_pos, List.mem_cons] at hc
      rcases hc with h | h
      · subst h; simp [ha]
      · exact ih false c h
    · by_cases hb : b
      · simp only [collapseRuns, ha, hb, if_neg, if_pos, Bool.false_eq_true,
          not_false_eq_true] at hc
        exact ih true c hc
      · simp only [collapseRuns, ha, hb, Bool.false_eq_true, if_neg, if_false,
          not_false_eq_true, List.mem_cons] at hc
        rcases hc with h | h
        · subst h; simp
        · exact ih true c h

/-- Inside a run (`inRun = true`), the next emitted character is
alphanumeric: the output of `collapseRuns true` never starts with `_`. -/
theorem collapseRuns_true_head (s : Str) :
    ∀ c t, collapseRuns true s = c :: t → isAlnumUpper c = true := by
  induction s with
  | nil => intro c t h; simp [collapseRuns] at h
  | cons a u ih =>
    intro c t h
    by_cases ha : isAlnumUpper a
    · simp only [collapseRuns, ha, if_pos, List.cons.injEq] at h
      exact h.1 ▸ ha
    · simp only [collapseRuns, ha, Bool.false_eq_true, if_neg, if_pos,
        not_false_eq_true] at h
      exact ih c t h

theorem collapseRuns_chain (s : Str) (b : Bool) :
    List.Chain' NoUU (collapseRuns b s) := by
  induction s generalizing b with
  | nil => simp [collapseRuns]
  | cons a t ih =>
    by_cases ha : isAlnumUpper a
    · simp only [collapseRuns, ha, if_pos]
      rw [List.chain'_cons']
      refine ⟨?_, ih false⟩
      intro y _
      exact fun h => alnum_ne_us ha h.1
    · by_cases hb : b
      · simpa only [collapseRuns, ha, hb, Bool.false_eq_true, if_neg, if_pos,
          not_false_eq_true] using ih true
      · simp only [collapseRuns, ha, hb, Bool.false_eq_true, if_neg, if_false,
          not_false_eq_true]
        rw [List.chain'_cons']
        refine ⟨?_, ih true⟩
        intro y hy
        cases hcol : collapseRuns true t with
        | nil => rw [hcol] at hy; simp at hy
        | cons c u =>
          rw [hcol] at hy; simp at hy
          subst hy
          exact fun h => alnum_ne_us (collapseRuns_true_head t c u hcol) h.2

theorem dropWhile_head_false {p : Char → Bool} :
    ∀ (s : Str) (c : Char), (s.dropWhile p).head? = some c → p c = false := by
  intro s
  induction s with
  | nil => intro c h; simp [List.dropWhile] at h
  | cons a t ih =>
    intro c h
    by_cases ha : p a
    · rw [List.dropWhile_cons_of_pos ha] at h
      exact ih c h
    · rw [List.dropWhile_cons_of_neg ha] at h
      simp at h
      subst h
      simpa using ha

theorem head?_of_pre {α : Type} {l₁ l₂ : List α} {c : α}
    (h : l₁ <+: l₂) (hc : l₁.head? = some c) : l₂.head? = some c := by
  obtain ⟨t, rfl⟩ := h
  cases l₁ with
  | nil => simp at hc
  | cons a u => simpa using hc

theorem stripUnderscores_head {s : Str} {c : Char}
    (h : (stripUnderscores s).head? = some c) : c ≠ '_' := by
  unfold stripUnderscores at h
  have hpre : ((s.dropWhile (· == '_')).reverse.dropWhile (· == '_')).reverse
      <+: (s.dropWhile (· == '_')).reverse.reverse := by
    exact (List.dropWhile_suffix _).reverse
  rw [List.reverse_reverse] at hpre
  have hfalse := dropWhile_head_false (p := (· == '_')) s c (head?_of_pre hpre h)
  intro hc; subst hc; simp at hfalse

theorem stripUnderscores_last {s : Str} {c : Char}
    (h : (stripUnderscores s).getLast? = some c) : c ≠ '_' := by
  unfold stripUnderscores at h
  rw [List.getLast?_reverse] at h
  have hfalse := dropWhile_head_false (p := (· == '_'))
    ((s.dropWhile (· == '_')).reverse) c h
  intro hc; subst hc; simp at hfalse

theorem stripUnderscores_chain {s : Str} (h : List.Chain' NoUU s) :
    List.Chain' NoUU (stripUnderscores s) := by
  unfold stripUnderscores
  rw [List.chain'_reverse]
  have h1 : List.Chain' NoUU (s.dropWhile (· == '_')) :=
    h.suffix (List.dropWhile_suffix _)
  have h2 : List.Chain' (flip NoUU) ((s.dropWhile (· == '_')).reverse) := by
    rw [List.chain'_reverse]
    simpa using h1
  exact h2.suffix (List.dropWhile_suffix _)

theorem stripUnderscores_mem {s : Str} {c : Char}
    (h : c ∈ stripUnderscores s) : c ∈ s := by
  unfold stripUnderscores at h
  rw [List.mem_reverse] at h
  have h1 := (List.dropWhile_suffix (l := (s.dropWhile (· == '_')).reverse)
    (p := (· == '_'))).sublist.mem h
  rw [List.mem_reverse] at h1
  exact (List.dropWhile_suffix (l := s) (p := (· == '_'))).sublist.mem h1

theorem sanitize_chars (s : Str) :
    ∀ c ∈ sanitize s, isAlnumUpper c || c == '_' := by
  intro c hc
  exact collapseRuns_chars (pyUpper s) false c (stripUnderscores_mem hc)

theorem sanitize_chain (s : Str) : List.Chain' NoUU (sanitize s) :=
  stripUnderscores_chain (collapseRuns_chain (pyUpper s) false)

theorem sanitize_noEdge (s : Str) : noEdgeUS (sanitize s) = true := by
  unfold noEdgeUS
  rw [Bool.and_eq_true]
  constructor
  · cases h : (sanitize s).head? with
    | none => simp
    | some c =>
      have := stripUnderscores_head (s := collapseRuns false (pyUpper s)) h
      simpa using this
  · cases h : (sanitize s).getLast? with
    | none => simp
    | some c =>
      have := stripUnderscores_last (s := collapseRuns false (pyUpper s)) h
      simpa using this

/-- **C10.**  For every team name and leader name, the branch name built by
`build_branch_name` is a deterministic function of its inputs (it is a pure
Lean function), consists only of uppercase letters, digits and underscores,
each sanitized part has no leading, trailing or repeated underscores, and
the whole name ends with the suffix `_AI_FIX`. -/
theorem build_branch_name_wellformed (team leader : Str) :
    branchChars (build_branch_name team leader) = true ∧
    "_AI_FIX".data <:+ build_branch_name team leader ∧
    noEdgeUS (sanitize team) = true ∧
    noEdgeUS (sanitize leader) = true ∧
    List.Chain' NoUU (sanitize team) ∧
    List.Chain' NoUU (sanitize leader) := by
  refine ⟨?_, ?_, sanitize_noEdge team, sanitize_noEdge leader,
    sanitize_chain team, sanitize_chain leader⟩
  · unfold branchChars build_branch_name
    rw [List.all_eq_true]
    intro c hc
    rcases List.mem_append.mp hc with h | h
    · rcases List.mem_append.mp h with h' | h'
      · exact sanitize_chars team c h'
      · rcases List.mem_cons.mp h' with h'' | h''
        · subst h''; simp
        · exact sanitize_chars leader c h''
    · have h' : c ∈ ['_', 'A', 'I', '_', 'F', 'I', 'X'] := h
      fin_cases h' <;> decide
  · exact ⟨sanitize team ++ '_' :: sanitize leader, by
      simp [build_branch_name]⟩

/-! ## Data model enumerations (src/backend/app/models.py) -/

/-- `models.BugType`. -/
inductive BugType
  | LINTING | SYNTAX | LOGIC | TYPE_ERROR | IMPORT | INDENTATION | UNKNOWN
deriving DecidableEq, Repr

/-- `models.CIStatus`. -/
inductive CIStatus
  | PASSED | FAILED | PENDING
deriving DecidableEq, Repr

/-- `models.RunStatus`. -/
inductive RunStatus
  | RUNNING | COMPLETED | FAILED
deriving DecidableEq, Repr

/-! ## Regex scanners

The classification regexes in the source are alternations of string
literals plus two numeric forms (`takes \d+ positional argument` and
`[EWF]\d{3}`); they are embedded as explicit scanners. -/

/-- Matches `\d+ pat` at the head of the string: one or more digits
immediately followed by the literal `pat`. -/
def digitRunThen (pat : Str) : Str → Bool
  | [] => false
  | c :: t =>
    if isDigitC c then pat.isPrefixOf t || digitRunThen pat t
    else false

/-- `re.search(r"takes \d+ positional argument", s)`. -/
def searchTakesPositional : Str → Bool
  | [] => false
  | c :: t =>
    ("takes ".data.isPrefixOf (c :: t) &&
      digitRunThen " positional argument".data ((c :: t).drop 6)) ||
    searchTakesPositional t

/-- `re.search(r"E\d{3}|W\d{3}|F\d{3}", s)`. -/
def searchEWF3 : Str → Bool
  | a :: b :: c :: d :: t =>
    ((a == 'E' || a == 'W' || a == 'F') && isDigitC b && isDigitC c && isDigitC d) ||
    searchEWF3 (b :: c :: d :: t)
  | _ => false

/-! ## Bug Classifier (src/backend/app/agents/bug_classifier.py) -/

/-- Pattern 1: `IndentationError|TabError|unexpected indent|unindent`. -/
def indentPat (s : Str) : Bool :=
  hasSub "IndentationError".data s || hasSub "TabError".data s ||
  hasSub "unexpected indent".data s || hasSub "unindent".data s

/-- Pattern 2: `SyntaxError|invalid syntax|EOF while parsing`. -/
def syntaxPat (s : Str) : Bool :=
  hasSub "SyntaxError".data s || hasSub "invalid syntax".data s ||
  hasSub "EOF while parsing".data s

/-- Pattern 3: `ImportError|ModuleNotFoundError|cannot import name`. -/
def importPat (s : Str) : Bool :=
  hasSub "ImportError".data s || hasSub "ModuleNotFoundError".data s ||
  hasSub "cannot import name".data s

/-- Pattern 4: `TypeError|takes \d+ positional argument`. -/
def typePat (s : Str) : Bool :=
  hasSub "TypeError".data s || searchTakesPositional s

/-- Pattern 5: `AssertionError|NameError|AttributeError|ValueError|KeyError|IndexError`. -/
def logicPat (s : Str) : Bool :=
  hasSub "AssertionError".data s || hasSub "NameError".data s ||
  hasSub "AttributeError".data s || hasSub "ValueError".data s ||
  hasSub "KeyError".data s || hasSub "IndexError".data s

/-- Pattern 6: `flake8|ruff|E\d{3}|W\d{3}|F\d{3}|undefined name|unused import`. -/
def lintPat (s : Str) : Bool :=
  hasSub "flake8".data s || hasSub "ruff".data s || searchEWF3 s ||
  hasSub "undefined name".data s || hasSub "unused import".data s

/-- `bug_classifier._PATTERNS`: the ordered classification table. -/
def PATTERNS : List (BugType × (Str → Bool)) :=
  [(.INDENTATION, indentPat), (.SYNTAX, syntaxPat), (.IMPORT, importPat),
   (.TYPE_ERROR, typePat), (.LOGIC, logicPat), (.LINTING, lintPat)]

/-- The `for bug_type, pattern in _PATTERNS` loop body of `_classify`:
first matching pattern wins. -/
def firstMatch (text : Str) : List (BugType × (Str → Bool)) → BugType
  | [] => .UNKNOWN
  | (bt, p) :: rest => if p text then bt else firstMatch text rest

/-- `bug_classifier._classify`. -/
def classifyBC (text : Str) : BugType := firstMatch text PATTERNS

/-- **C8.**  Classification is a deterministic total function (a pure Lean
function into the closed `BugType` enumeration, so every diagnostic string
maps to exactly one category) whose rules are checked in the fixed priority
order Indentation, Syntax, Import, TypeMismatch, Logic, LintViolation, with
Unknown as the default; in particular any string containing an indentation
marker (first `if`) is classified Indentation. -/
theorem classifyBC_priority_order (s : Str) :
    classifyBC s =
      (if indentPat s then .INDENTATION
       else if syntaxPat s then .SYNTAX
       else if importPat s then .IMPORT
       else if typePat s then .TYPE_ERROR
       else if logicPat s then .LOGIC
       else if lintPat s then .LINTING
       else .UNKNOWN) := by
  simp [classifyBC, PATTERNS, firstMatch]

/-! ## CI Timeline & Scoring Engine
(src/backend/app/agents/orchestrator.py lines 170–189) -/

/-- `models.ScoreBreakdown`. -/
structure ScoreBreakdown where
  base_score : Int
  speed_bonus : Int
  efficiency_penalty : Int
  ci_penalty : Int
  final_score : Int
deriving DecidableEq, Repr

/-- The scoring block of `AgentOrchestrator.run` (Step 6), lines 171–189.
`elapsedLt300` abstracts the wall-clock test `elapsed < 300`. -/
def computeScore (totalFailuresInitial totalFixesApplied : Nat)
    (elapsedLt300 : Bool) (ciFinal : CIStatus) : ScoreBreakdown :=
  let speed_bonus : Int := if elapsedLt300 then 10 else 0
  let excess_commits : Int := max 0 ((totalFixesApplied : Int) - 20)
  let efficiency_penalty : Int := excess_commits * 2
  let remaining_failures : Int :=
    (totalFailuresInitial : Int) - (totalFixesApplied : Int)
  let base : Int := 100 - remaining_failures * 10
  let raw_score : Int := max 0 (base + speed_bonus - efficiency_penalty)
  let ci_penalty : Int :=
    if ciFinal ≠ CIStatus.PASSED ∧ 50 < raw_score then raw_score - 50 else 0
  { base_score := base
    speed_bonus := speed_bonus
    efficiency_penalty := efficiency_penalty
    ci_penalty := ci_penalty
    final_score := raw_score - ci_penalty }

/-- Modelled from the spec: the §4.4 scoring formula verbatim, with the
`max(0, …)` clamp inside `base`.  Used only to compare the code's scoring
block against the spec's words. -/
def specScoreFormula (initialFailureCount totalFixesApplied : Nat)
    (elapsedLt300 : Bool) (finalCIStatus : CIStatus) : ScoreBreakdown :=
  let base : Int :=
    100 - 10 * max 0 ((initialFailureCount : Int) - (totalFixesApplied : Int))
  let speedBonus : Int := if elapsedLt300 then 10 else 0
  let efficiencyPenalty : Int := 2 * max 0 ((totalFixesApplied : Int) - 20)
  let rawScore : Int := max 0 (base + speedBonus - efficiencyPenalty)
  let ciPenalty : Int :=
    if finalCIStatus = CIStatus.PASSED then 0 else max 0 (rawScore - 50)
  { base_score := base
    speed_bonus := speedBonus
    efficiency_penalty := efficiencyPenalty
    ci_penalty := ciPenalty
    final_score := rawScore - ciPenalty }

/-- **C1 counterexample.**  With `initialFailureCount = 0` and
`totalFixesApplied = 1` the code's base score is `110 > 100`: the code has
no `max(0, …)` clamp on the remaining-failure term, refuting "base never
exceeds 100". -/
theorem computeScore_base_exceeds_100 :
    (computeScore 0 1 true CIStatus.PASSED).base_score = 110 ∧
    ¬ (computeScore 0 1 true CIStatus.PASSED).base_score ≤ 100 ∧
    computeScore 0 1 true CIStatus.PASSED ≠
      specScoreFormula 0 1 true CIStatus.PASSED := by
  refine ⟨by decide, by decide, by decide⟩

/-- The spec's §4.4 formula as amended by the counterexample: identical
except that the remaining-failure term of `base` is not clamped at zero. -/
def amendedScoreFormula (initialFailureCount totalFixesApplied : Nat)
    (elapsedLt300 : Bool) (finalCIStatus : CIStatus) : ScoreBreakdown :=
  let base : Int :=
    100 - 10 * ((initialFailureCount : Int) - (totalFixesApplied : Int))
  let speedBonus : Int := if elapsedLt300 then 10 else 0
  let efficiencyPenalty : Int := 2 * max 0 ((totalFixesApplied : Int) - 20)
  let rawScore : Int := max 0 (base + speedBonus - efficiencyPenalty)
  let ciPenalty : Int :=
    if finalCIStatus = CIStatus.PASSED then 0 else max 0 (rawScore - 50)
  { base_score := base
    speed_bonus := speedBonus
    efficiency_penalty := efficiencyPenalty
    ci_penalty := ciPenalty
    final_score := rawScore - ciPenalty }

/-- **C1 (amended).**  The code computes the spec's formula except that the
remaining-failure term in `base` is *not* clamped at zero:
`base = 100 − 10 × (initialFailureCount − totalFixesApplied)` as a signed
value (so it exceeds 100 when more fixes were applied than there were
initial failures); speed bonus, efficiency penalty, raw score, CI penalty
and final score are exactly as the spec states, and the code agrees with
the spec's formula whenever `totalFixesApplied ≤ initialFailureCount`. -/
theorem computeScore_formula (init fixes : Nat) (fast : Bool) (ci : CIStatus) :
    computeScore init fixes fast ci = amendedScoreFormula init fixes fast ci ∧
    (fixes ≤ init →
      computeScore init fixes fast ci = specScoreFormula init fixes fast ci) := by
  constructor
  · simp only [computeScore, amendedScoreFormula]
    rw [ScoreBreakdown.mk.injEq]
    refine ⟨by ring, rfl, by ring, ?_, ?_⟩ <;>
      cases ci <;> (try simp) <;> split_ifs <;> omega
  · intro hle
    have hle' : (fixes : Int) ≤ (init : Int) := by exact_mod_cast hle
    simp only [computeScore, specScoreFormula]
    rw [ScoreBreakdown.mk.injEq]
    refine ⟨by omega, rfl, by ring, ?_, ?_⟩ <;>
      cases ci <;> (try simp) <;> split_ifs <;> omega

/-- **C1 witness** for the amended theorem's implication, at the spec's own
§8 example (3 initial failures, 3 fixes, fast, CI passed): the code and the
spec formula coincide and yield final score 110. -/
theorem computeScore_formula_witness :
    (3 ≤ 3 ∧
      computeScore 3 3 true CIStatus.PASSED = specScoreFormula 3 3 true CIStatus.PASSED) ∧
    (computeScore 3 3 true CIStatus.PASSED).final_score = 110 :=
  ⟨⟨le_refl 3, (computeScore_formula 3 3 true CIStatus.PASSED).2 (le_refl 3)⟩,
    by decide⟩

/-! ## Fix Generator (src/backend/app/agents/fix_generator.py)

The filesystem and the generative model are external: a `FixEnv` oracle
supplies `os.path.exists`, `read_file_safe` and the raw LLM response.
`os.path.realpath` is modelled as the identity (no symlinks) and
`os.path.relpath(p, base)` by stripping the `base ++ "/"` prefix when it
is one (its other cases do not arise for the repository's path shapes). -/

/-- Python `str.lower`, char-wise. -/
def pyLower (s : Str) : Str := s.map Char.toLower

/-- `"".join`-style flattening. -/
def joinStr (ls : List Str) : Str := ls.flatten

/-- `s.splitlines(keepends=True)` with `\n` as the line terminator. -/
def splitKeepEndsAux (cur : Str) : Str → List Str
  | [] => if cur.isEmpty then [] else [cur.reverse]
  | c :: t =>
    if c = '\n' then (cur.reverse ++ ['\n']) :: splitKeepEndsAux [] t
    else splitKeepEndsAux (c :: cur) t

/-- Python `s.splitlines(keepends=True)` (terminator `\n`). -/
def splitKeepEnds (s : Str) : List Str := splitKeepEndsAux [] s

/-- `s.splitlines()` (terminator `\n`, ends dropped). -/
def splitLinesAux (cur : Str) : Str → List Str
  | [] => if cur.isEmpty then [] else [cur.reverse]
  | c :: t =>
    if c = '\n' then cur.reverse :: splitLinesAux [] t
    else splitLinesAux (c :: cur) t

/-- Python `s.splitlines()`. -/
def splitLines (s : Str) : List Str := splitLinesAux [] s

/-- Maximal run of leading ASCII digits. -/
def takeDigits : Str → Str
  | [] => []
  | c :: t => if isDigitC c then c :: takeDigits t else []

/-- Numeric value of a digit string. -/
def digitsToNat (ds : Str) : Nat :=
  ds.foldl (fun n c => n * 10 + (c.toNat - 48)) 0

/-- `re.search(r"line (\d+)", s)`: the first capture converted with `int`. -/
def searchLineNum : Str → Option Nat
  | [] => none
  | c :: t =>
    if "line ".data.isPrefixOf (c :: t) then
      let ds := takeDigits ((c :: t).drop 5)
      if ds.isEmpty then searchLineNum t else some (digitsToNat ds)
    else searchLineNum t

/-- `re.search(r"No module named '([^']+)'", s)`: the captured module. -/
def searchNoModule : Str → Option Str
  | [] => none
  | c :: t =>
    if "No module named '".data.isPrefixOf (c :: t) then
      let rest := (c :: t).drop 17
      let pre := rest.takeWhile (fun d => d ≠ '\'')
      if !pre.isEmpty && pre.length < rest.length then some pre
      else searchNoModule t
    else searchNoModule t

/-- One line of the Import heuristic: comment out a line importing the
unresolved module (fix_generator.py lines 68–74). -/
def importFixLine (module : Str) (line : Str) : Str :=
  let stripped := pyStrip line
  if (hasSub ("import ".data ++ module) stripped ||
      hasSub ("from ".data ++ module) stripped) &&
     !(['#'].isPrefixOf stripped) then
    "# FIXED: ".data ++ pyRstrip line ++ "  # module not available\n".data
  else line

/-- `content.replace("\t", "    ")`. -/
def replaceTabs (s : Str) : Str :=
  s.flatMap (fun c => if c = '\t' then "    ".data else [c])

/-- `_heuristic_fix(file_path, bug_type, error_message)`, with the
`read_file_safe` result supplied by the environment. -/
def heuristic_fix (content : Option Str) (bug_type error_message : Str) :
    Option Str :=
  match content with
  | none => none
  | some content =>
    let lines := splitKeepEnds content
    let importTry : Option Str :=
      if bug_type = "IMPORT".data ∨
         hasSub "ModuleNotFoundError".data error_message ∨
         hasSub "ImportError".data error_message then
        match searchNoModule error_message with
        | some m =>
          let module := m.takeWhile (fun d => d ≠ '.')
          some (joinStr (lines.map (importFixLine module)))
        | none => none
      else none
    match importTry with
    | some r => some r
    | none =>
      if bug_type = "INDENTATION".data then some (replaceTabs content)
      else
        let syntaxTry : Option Str :=
          if bug_type = "SYNTAX".data then
            match searchLineNum error_message with
            | some n =>
              if 1 ≤ n ∧ n - 1 < lines.length then
                some (joinStr (lines.set (n - 1)
                  ("# SYNTAX FIX: ".data ++ pyRstrip (lines.getD (n - 1) []) ++
                    "  # original line had syntax error\n".data)))
              else none
            | none => none
          else none
        match syntaxTry with
        | some r => some r
        | none =>
          if bug_type = "LINTING".data then
            match searchLineNum error_message with
            | some n =>
              if hasSub "unused".data (pyLower error_message) ∧
                 1 ≤ n ∧ n - 1 < lines.length then
                some (joinStr (lines.set (n - 1)
                  ("# REMOVED: ".data ++ pyRstrip (lines.getD (n - 1) []) ++
                    "  # unused import\n".data)))
              else none
            | none => none
          else none

/-- One line of `re.sub("^" ++ pat ++ "\n?", "", s, flags=re.MULTILINE)`:
if the line starts with `pat`, drop it and one directly following
newline.  Applied to each `keepends` line (a `^` anchor matches exactly
at line starts, and the pattern contains no newline). -/
def subLineMarkerLine (pat line : Str) : Str :=
  if pat.isPrefixOf line then
    match line.drop pat.length with
    | '\n' :: r => r
    | r => r
  else line

/-- `re.sub("^" ++ pat ++ "\n?", "", s, flags=re.MULTILINE)`. -/
def subLineMarker (pat s : Str) : Str :=
  joinStr ((splitKeepEnds s).map (subLineMarkerLine pat))

/-- `FixGeneratorAgent._fix_with_llm`: the raw agent response is supplied
by the environment; markdown fences are stripped and the result is
`.strip() + "\n"`.  `None` covers both an unavailable agent and a failed
call. -/
def fix_with_llm (resp : Option Str) : Option Str :=
  match resp with
  | none => none
  | some r =>
    some (pyStrip (subLineMarker "```".data
      (subLineMarker "```python".data r)) ++ ['\n'])

/-- A classified failure as handed to the fix generator by the
orchestrator (a dict with `file`, `line`, `bug_type` value string and
`error_message`). -/
structure ClassifiedFailure where
  file : Str
  line : Option Int := none
  bug_type : Str
  error_message : Str
deriving DecidableEq, Repr

/-- `BugType(s)` when `s` is a member value, else `BugType.UNKNOWN`
(fix_generator.py line 195). -/
def bugTypeOfStr (s : Str) : BugType :=
  if s = "LINTING".data then .LINTING
  else if s = "SYNTAX".data then .SYNTAX
  else if s = "LOGIC".data then .LOGIC
  else if s = "TYPE_ERROR".data then .TYPE_ERROR
  else if s = "IMPORT".data then .IMPORT
  else if s = "INDENTATION".data then .INDENTATION
  else .UNKNOWN

/-- `models.FixProposal` (statuses are the literal strings used by the
code: `"Fixed"`, `"Skipped"`, `"Failed"`). -/
structure FixProposal where
  file : Str
  line : Option Int := none
  bug_type : BugType := .UNKNOWN
  original_code : Option Str := none
  fixed_code : Option Str := none
  description : Str
  commit_message : Str
  status : Str
deriving DecidableEq, Repr

/-- Environment oracle for one `FixGeneratorAgent.run` call:
`os.path.exists`, `read_file_safe`, and the raw LLM response for a given
(file, bug_type, error_message) triple (`none` = agent unavailable or
call failed). -/
structure FixEnv where
  pathExists : Str → Bool
  content : Str → Option Str
  llm : Str → Str → Str → Option Str

/-- Is `p` an absolute POSIX path? -/
def isAbsPath (p : Str) : Bool := ['/'].isPrefixOf p

/-- `os.path.join(d, f)` for a relative `f`. -/
def joinPath (d f : Str) : Str := d ++ '/' :: f

/-- `os.path.relpath(p, base)`, modelled for the prefixed case. -/
def relpathM (p base : Str) : Str :=
  if (base ++ ['/']).isPrefixOf p then p.drop (base.length + 1) else p

/-- One processed failure: the produced proposal together with the
observations the claims are about — the resolved absolute path, the
`fixed_content` value at the decision point (`candidate`), and what was
written to disk (`written`). -/
structure FixEvent where
  absFile : Str
  candidate : Option Str
  written : Option Str
  proposal : FixProposal
deriving DecidableEq, Repr

/-- `fixed_content` after the two assignments at fix_generator.py lines
182–184 (Python truthiness: an empty LLM string also falls back to the
heuristic). -/
def candidateOf (env : FixEnv) (absFile bt msg : Str) : Option Str :=
  match fix_with_llm (env.llm absFile bt msg) with
  | some c =>
    if c.isEmpty then heuristic_fix (env.content absFile) bt msg else some c
  | none => heuristic_fix (env.content absFile) bt msg

/-- The Skipped / Fixed / Failed decision on a produced `fixed_content`
(fix_generator.py lines 186–231).  An empty candidate is falsy in Python
and lands in the `else` (Failed) branch.  Returns the event and the
updated `seen_files`. -/
def decideCandidate (repoDir : Str) (seen : List Str) (f : ClassifiedFailure)
    (absFile : Str) (original : Str) (cand : Option Str) : FixEvent × List Str :=
  match cand with
  | some c =>
    if c.isEmpty then
      (⟨absFile, some c, none,
        { file := if isAbsPath absFile then relpathM absFile repoDir else f.file
          line := f.line, bug_type := bugTypeOfStr f.bug_type
          description := "Could not fix ".data ++ f.bug_type ++ " in ".data ++
            (if isAbsPath absFile then relpathM absFile repoDir else f.file)
          commit_message :=
            "[AI-AGENT] Attempted fix for ".data ++ f.bug_type ++ " in ".data ++
            (if isAbsPath absFile then relpathM absFile repoDir else f.file)
          status := "Failed".data }⟩, seen)
    else
      if pyStrip original = pyStrip c then
        (⟨absFile, some c, none,
          { file := relpathM absFile repoDir
            line := f.line, bug_type := bugTypeOfStr f.bug_type
            description := "No change needed for ".data ++ f.bug_type ++
              " in ".data ++ relpathM absFile repoDir
            commit_message := "[AI-AGENT] No fix for ".data ++ f.bug_type ++
              " in ".data ++ relpathM absFile repoDir
            status := "Skipped".data }⟩, seen)
      else
        (⟨absFile, some c, some c,
          { file := relpathM absFile repoDir
            line := f.line, bug_type := bugTypeOfStr f.bug_type
            original_code := if original.isEmpty then none else some (original.take 500)
            fixed_code := some (c.take 500)
            description := "Fixed ".data ++ f.bug_type ++ " in ".data ++
              relpathM absFile repoDir
            commit_message := "[AI-AGENT] Fix ".data ++ f.bug_type ++
              " in ".data ++ relpathM absFile repoDir
            status := "Fixed".data }⟩, absFile :: seen)
  | none =>
    (⟨absFile, none, none,
      { file := if isAbsPath absFile then relpathM absFile repoDir else f.file
        line := f.line, bug_type := bugTypeOfStr f.bug_type
        description := "Could not fix ".data ++ f.bug_type ++ " in ".data ++
          (if isAbsPath absFile then relpathM absFile repoDir else f.file)
        commit_message :=
          "[AI-AGENT] Attempted fix for ".data ++ f.bug_type ++ " in ".data ++
          (if isAbsPath absFile then relpathM absFile repoDir else f.file)
        status := "Failed".data }⟩, seen)

/-- The body of the `for failure in classified_failures` loop of
`FixGeneratorAgent.run` (fix_generator.py lines 156–231), for one failure
that resolved to the existing path `absFile` not yet in `seen_files`. -/
def processCandidate (env : FixEnv) (repoDir : Str) (seen : List Str)
    (f : ClassifiedFailure) (absFile : Str) : FixEvent × List Str :=
  decideCandidate repoDir seen f absFile ((env.content absFile).getD [])
    (candidateOf env absFile f.bug_type f.error_message)

/-- Path resolution and the `continue` guards of the loop body
(fix_generator.py lines 157–175): skip missing files and files already in
`seen_files`. -/
def processFailure (env : FixEnv) (repoDir : Str) (seen : List Str)
    (f : ClassifiedFailure) : Option FixEvent × List Str :=
  let realRepo := repoDir  -- os.path.realpath modelled as the identity
  let absFile0 := if isAbsPath f.file then f.file else joinPath realRepo f.file
  if env.pathExists absFile0 then
    if absFile0 ∈ seen then (none, seen)
    else
      let (e, seen') := processCandidate env realRepo seen f absFile0
      (some e, seen')
  else
    let alt := if isAbsPath f.file then f.file else joinPath repoDir f.file
    if env.pathExists alt then
      if alt ∈ seen then (none, seen)
      else
        let (e, seen') := processCandidate env realRepo seen f alt
        (some e, seen')
    else (none, seen)

/-- `FixGeneratorAgent.run`: fold the loop body over the classified
failures, threading `seen_files`. -/
def fixGenRunAux (env : FixEnv) (repoDir : Str) :
    List ClassifiedFailure → List Str → List FixEvent
  | [], _ => []
  | f :: fs, seen =>
    match processFailure env repoDir seen f with
    | (none, seen') => fixGenRunAux env repoDir fs seen'
    | (some e, seen') => e :: fixGenRunAux env repoDir fs seen'

/-- The event trace of one `FixGeneratorAgent.run` call. -/
def fixGenEvents (env : FixEnv) (repoDir : Str)
    (failures : List ClassifiedFailure) : List FixEvent :=
  fixGenRunAux env repoDir failures []

/-- The proposals returned by `FixGeneratorAgent.run`. -/
def fixGenProposals (env : FixEnv) (repoDir : Str)
    (failures : List ClassifiedFailure) : List FixProposal :=
  (fixGenEvents env repoDir failures).map (·.proposal)

/-! Lemmas about one loop-body step of the fix generator. -/

theorem decideCandidate_spec (repo : Str) (seen : List Str)
    (f : ClassifiedFailure) (a original : Str) (cand : Option Str) :
    (decideCandidate repo seen f a original cand).1.absFile = a ∧
    (decideCandidate repo seen f a original cand).1.candidate = cand ∧
    ((decideCandidate repo seen f a original cand).1.proposal.status = "Fixed".data →
      (decideCandidate repo seen f a original cand).2 = a :: seen) ∧
    ((decideCandidate repo seen f a original cand).1.proposal.status ≠ "Fixed".data →
      (decideCandidate repo seen f a original cand).2 = seen) ∧
    ((decideCandidate repo seen f a original cand).1.written.isSome ↔
      (decideCandidate repo seen f a original cand).1.proposal.status = "Fixed".data) ∧
    ((decideCandidate repo seen f a original cand).1.written = none ∨
      (decideCandidate repo seen f a original cand).1.written = cand) ∧
    (∀ c, cand = some c → c ≠ [] → pyStrip original = pyStrip c →
      (decideCandidate repo seen f a original cand).1.proposal.status = "Skipped".data) := by
  refine ⟨?_, ?_, ?_, ?_, ?_, ?_, ?_⟩
  · rcases cand with _ | c
    · rfl
    · by_cases hc : c.isEmpty <;> by_cases hs : pyStrip original = pyStrip c <;>
        simp [decideCandidate, hc, hs]
  · rcases cand with _ | c
    · rfl
    · by_cases hc : c.isEmpty <;> by_cases hs : pyStrip original = pyStrip c <;>
        simp [decideCandidate, hc, hs]
  · rcases cand with _ | c
    · exact fun h => absurd (show "Failed".data = "Fixed".data from h) (by decide)
    · by_cases hc : c.isEmpty
      · have hst : (decideCandidate repo seen f a original (some c)).1.proposal.status
            = "Failed".data := by simp [decideCandidate, hc]
        rw [hst]; exact fun h => absurd h (by decide)
      · by_cases hs : pyStrip original = pyStrip c
        · have hst : (decideCandidate repo seen f a original (some c)).1.proposal.status
              = "Skipped".data := by simp [decideCandidate, hc, hs]
          rw [hst]; exact fun h => absurd h (by decide)
        · intro _; simp [decideCandidate, hc, hs]
  · rcases cand with _ | c
    · exact fun _ => rfl
    · by_cases hc : c.isEmpty
      · intro _; simp [decideCandidate, hc]
      · by_cases hs : pyStrip original = pyStrip c
        · intro _; simp [decideCandidate, hc, hs]
        · have hst : (decideCandidate repo seen f a original (some c)).1.proposal.status
              = "Fixed".data := by simp [decideCandidate, hc, hs]
          exact fun h => absurd hst h
  · rcases cand with _ | c
    · constructor
      · intro h; exact absurd (show (none : Option Str).isSome = true from h) (by decide)
      · intro h; exact absurd (show "Failed".data = "Fixed".data from h) (by decide)
    · by_cases hc : c.isEmpty
      · have hw : (decideCandidate repo seen f a original (some c)).1.written
            = none := by simp [decideCandidate, hc]
        have hst : (decideCandidate repo seen f a original (some c)).1.proposal.status
            = "Failed".data := by simp [decideCandidate, hc]
        rw [hw, hst]
        simp only [Option.isSome_none, Bool.false_eq_true, false_iff]
        decide
      · by_cases hs : pyStrip original = pyStrip c
        · have hw : (decideCandidate repo seen f a original (some c)).1.written
              = none := by simp [decideCandidate, hc, hs]
          have hst : (decideCandidate repo seen f a original (some c)).1.proposal.status
              = "Skipped".data := by simp [decideCandidate, hc, hs]
          rw [hw, hst]
          simp only [Option.isSome_none, Bool.false_eq_true, false_iff]
          decide
        · have hw : (decideCandidate repo seen f a original (some c)).1.written
              = some c := by simp [decideCandidate, hc, hs]
          have hst : (decideCandidate repo seen f a original (some c)).1.proposal.status
              = "Fixed".data := by simp [decideCandidate, hc, hs]
          rw [hw, hst]
          simp
  · rcases cand with _ | c
    · exact Or.inl rfl
    · by_cases hc : c.isEmpty
      · exact Or.inl (by simp [decideCandidate, hc])
      · by_cases hs : pyStrip original = pyStrip c
        · exact Or.inl (by simp [decideCandidate, hc, hs])
        · exact Or.inr (by simp [decideCandidate, hc, hs])
  · rcases cand with _ | c
    · intro c' hc'
      exact absurd (show (none : Option Str) = some c' from hc') (by simp)
    · intro c' hc' hne hstrip
      rw [Option.some.injEq] at hc'
      subst hc'
      by_cases hc : c.isEmpty
      · rw [List.isEmpty_iff] at hc
        exact absurd hc hne
      · by_cases hs : pyStrip original = pyStrip c
        · simp [decideCandidate, hc, hs]
        · exact absurd hstrip hs

/-- `decideCandidate_spec` read through `processCandidate`. -/
theorem processCandidate_spec (env : FixEnv) (repo : Str) (seen : List Str)
    (f : ClassifiedFailure) (a : Str) :
    (processCandidate env repo seen f a).1.absFile = a ∧
    (processCandidate env repo seen f a).1.candidate
        = candidateOf env a f.bug_type f.error_message ∧
    ((processCandidate env repo seen f a).1.proposal.status = "Fixed".data →
      (processCandidate env repo seen f a).2 = a :: seen) ∧
    ((processCandidate env repo seen f a).1.proposal.status ≠ "Fixed".data →
      (processCandidate env repo seen f a).2 = seen) ∧
    ((processCandidate env repo seen f a).1.written.isSome ↔
      (processCandidate env repo seen f a).1.proposal.status = "Fixed".data) ∧
    ((processCandidate env repo seen f a).1.written = none ∨
      (processCandidate env repo seen f a).1.written
        = candidateOf env a f.bug_type f.error_message) ∧
    (∀ c, candidateOf env a f.bug_type f.error_message = some c → c ≠ [] →
      pyStrip ((env.content a).getD []) = pyStrip c →
        (processCandidate env repo seen f a).1.proposal.status = "Skipped".data) :=
  decideCandidate_spec repo seen f a ((env.content a).getD [])
    (candidateOf env a f.bug_type f.error_message)

theorem processFailure_cases (env : FixEnv) (repo : Str) (seen : List Str)
    (f : ClassifiedFailure) :
    (processFailure env repo seen f = (none, seen)) ∨
    (∃ a, a ∉ seen ∧
      processFailure env repo seen f =
        (some (processCandidate env repo seen f a).1,
          (processCandidate env repo seen f a).2)) := by
  simp only [processFailure]
  split_ifs <;>
    first
      | exact Or.inl rfl
      | exact Or.inr ⟨_, by assumption, rfl⟩

/-- Once a file is in `seen_files`, no later event of the same call
concerns it. -/
theorem fixGenRunAux_avoid (env : FixEnv) (repo : Str) :
    ∀ (fs : List ClassifiedFailure) (seen : List Str) (x : Str), x ∈ seen →
      ∀ e ∈ fixGenRunAux env repo fs seen, e.absFile ≠ x := by
  intro fs
  induction fs with
  | nil => intro seen x _ e he; simp [fixGenRunAux] at he
  | cons f fs ih =>
    intro seen x hx e he
    rcases processFailure_cases env repo seen f with h | ⟨a, ha, h⟩
    · rw [fixGenRunAux, h] at he
      exact ih seen x hx e he
    · rw [fixGenRunAux, h] at he
      rcases List.mem_cons.mp he with rfl | htail
      · rw [(processCandidate_spec env repo seen f a).1]
        intro hax; subst hax; exact ha hx
      · have hsub : x ∈ (processCandidate env repo seen f a).2 := by
          by_cases hst :
              (processCandidate env repo seen f a).1.proposal.status = "Fixed".data
          · rw [(processCandidate_spec env repo seen f a).2.2.1 hst]
            exact List.mem_cons_of_mem _ hx
          · rw [(processCandidate_spec env repo seen f a).2.2.2.1 hst]
            exact hx
        exact ih _ x hsub e htail

/-- **C4 (amended).**  After a proposal with status Fixed has been produced
for a file, no further fix attempt is made for that file in the same call
(`seen_files` dedups on Fixed files only); files whose proposals came out
Skipped or Failed may be attempted again in the same call. -/
theorem fixGen_dedup_after_fixed (env : FixEnv) (repo : Str)
    (failures : List ClassifiedFailure) :
    List.Pairwise
      (fun a b => a.proposal.status = "Fixed".data → a.absFile ≠ b.absFile)
      (fixGenEvents env repo failures) := by
  unfold fixGenEvents
  generalize ([] : List Str) = seen
  induction failures generalizing seen with
  | nil => simp [fixGenRunAux]
  | cons f fs ih =>
    rcases processFailure_cases env repo seen f with h | ⟨a, _, h⟩
    · rw [fixGenRunAux, h]
      exact ih seen
    · rw [fixGenRunAux, h]
      rw [List.pairwise_cons]
      refine ⟨?_, ih _⟩
      intro b hb hfix
      have hseen : (processCandidate env repo seen f a).2 = a :: seen :=
        (processCandidate_spec env repo seen f a).2.2.1 hfix
      have hne := fixGenRunAux_avoid env repo fs
        ((processCandidate env repo seen f a).2) a
        (by rw [hseen]; exact List.mem_cons_self a seen) b hb
      rw [(processCandidate_spec env repo seen f a).1]
      exact fun hEq => hne (hEq ▸ rfl)

/-- C4 counterexample environment: one existing file whose LLM candidate
always equals its current content. -/
def envNoopLLM : FixEnv :=
  { pathExists := fun p => p = "/repo/a.py".data
    content := fun p => if p = "/repo/a.py".data then some "x\n".data else none
    llm := fun _ _ _ => some "x".data }

/-- A failure in that file. -/
def failSyntaxA : ClassifiedFailure :=
  { file := "a.py".data, bug_type := "SYNTAX".data,
    error_message := "invalid syntax".data }

/-- **C4 counterexample.**  Two classified failures in the same file whose
candidate is a no-op: the first produces a Skipped proposal, yet a second
(generative) fix attempt is still made for the same file in the same call,
producing a second event — refuting "after any proposal has been produced
for a file, no further fix attempt is made for that file". -/
theorem fixGen_reattempts_after_skipped :
    (fixGenEvents envNoopLLM "/repo".data [failSyntaxA, failSyntaxA]).map
        (·.absFile) = ["/repo/a.py".data, "/repo/a.py".data] ∧
    (fixGenEvents envNoopLLM "/repo".data [failSyntaxA, failSyntaxA]).map
        (·.candidate) = [some "x\n".data, some "x\n".data] ∧
    (fixGenEvents envNoopLLM "/repo".data [failSyntaxA, failSyntaxA]).map
        (·.proposal.status) = ["Skipped".data, "Skipped".data] := by
  decide

/-- **C5 (amended).**  Disk is written exactly by Fixed proposals (the
written content being the candidate); a *non-empty* candidate that equals
the original after trimming yields a Skipped proposal and no write.  (An
empty candidate string is falsy in Python and yields a Failed proposal —
the sole divergence from the claim as stated.) -/
theorem fixGen_side_effect_contract (env : FixEnv) (repo : Str)
    (failures : List ClassifiedFailure) (e : FixEvent)
    (he : e ∈ fixGenEvents env repo failures) :
    (e.written.isSome ↔ e.proposal.status = "Fixed".data) ∧
    (e.written = none ∨ e.written = e.candidate) ∧
    (∀ c, e.candidate = some c → c ≠ [] →
      pyStrip ((env.content e.absFile).getD []) = pyStrip c →
        e.proposal.status = "Skipped".data ∧ e.written = none) := by
  unfold fixGenEvents at he
  generalize hseen : ([] : List Str) = seen at he
  clear hseen
  induction failures generalizing seen with
  | nil => simp [fixGenRunAux] at he
  | cons f fs ih =>
    rcases processFailure_cases env repo seen f with h | ⟨a, _, h⟩
    · rw [fixGenRunAux, h] at he
      exact ih seen he
    · rw [fixGenRunAux, h] at he
      rcases List.mem_cons.mp he with rfl | htail
      · have spec := processCandidate_spec env repo seen f a
        have habs : (processCandidate env repo seen f a).1.absFile = a := spec.1
        refine ⟨spec.2.2.2.2.1, spec.2.2.2.2.2.1.imp id (fun h' => ?_), ?_⟩
        · rw [h', spec.2.1]
        · intro c hcand hne hstrip
          have hcand' : candidateOf env a f.bug_type f.error_message = some c := by
            rw [← spec.2.1]; exact hcand
          have hsk := spec.2.2.2.2.2.2 c hcand' hne (by rw [habs] at hstrip; exact hstrip)
          refine ⟨hsk, ?_⟩
          have hnotfix :
              (processCandidate env repo seen f a).1.proposal.status ≠ "Fixed".data := by
            rw [hsk]; decide
          have := spec.2.2.2.2.1
          rcases hw : (processCandidate env repo seen f a).1.written with _ | w
          · rfl
          · exact absurd (this.mp (by rw [hw]; rfl)) hnotfix
      · exact ih _ htail

/-- C5 witness environment: the LLM candidate is a whitespace-equal no-op
for an existing file. -/
def envNoopW : FixEnv :=
  { pathExists := fun p => p = "/repo/w.py".data
    content := fun p => if p = "/repo/w.py".data then some "y\n".data else none
    llm := fun _ _ _ => some "y".data }

/-- The failure fed to the witness run. -/
def failLogicW : ClassifiedFailure :=
  { file := "w.py".data, bug_type := "LOGIC".data,
    error_message := "AssertionError".data }

/-- The single event of the witness run. -/
def eventNoopW : FixEvent :=
  (fixGenEvents envNoopW "/repo".data [failLogicW]).headD
    ⟨[], none, none,
      { file := [], description := [], commit_message := [], status := [] }⟩

/-- **C5 witness.**  On the concrete no-op environment the side-effect
contract instantiates: the event's proposal is Skipped and nothing is
written. -/
theorem fixGen_side_effect_contract_witness :
    eventNoopW ∈ fixGenEvents envNoopW "/repo".data [failLogicW] ∧
    (eventNoopW.written.isSome ↔ eventNoopW.proposal.status = "Fixed".data) ∧
    eventNoopW.proposal.status = "Skipped".data ∧ eventNoopW.written = none :=
  ⟨by decide,
    (fixGen_side_effect_contract envNoopW "/repo".data [failLogicW] eventNoopW
      (by decide)).1,
    (fixGen_side_effect_contract envNoopW "/repo".data [failLogicW] eventNoopW
      (by decide)).2.2 "y\n".data (by decide) (by decide) (by decide)⟩

/-- C5 counterexample environment: an existing *empty* file with an
Indentation failure — the heuristic produces the empty candidate. -/
def envEmptyFile : FixEnv :=
  { pathExists := fun p => p = "/repo/e.py".data
    content := fun p => if p = "/repo/e.py".data then some [] else none
    llm := fun _ _ _ => none }

/-- The failure fed to the counterexample run. -/
def failIndentE : ClassifiedFailure :=
  { file := "e.py".data, bug_type := "INDENTATION".data,
    error_message := "IndentationError".data }

/-- **C5 counterexample.**  The produced candidate (the empty string) is
trim-equal to the original file content, yet the proposal's status is
Failed, not Skipped: Python's truthiness test `if fixed_content:` routes an
empty candidate to the no-candidate branch. -/
theorem fixGen_empty_candidate_not_skipped :
    (fixGenEvents envEmptyFile "/repo".data [failIndentE]).map (·.candidate)
        = [some []] ∧
    pyStrip ((envEmptyFile.content "/repo/e.py".data).getD []) = pyStrip [] ∧
    (fixGenEvents envEmptyFile "/repo".data [failIndentE]).map
        (·.proposal.status) = ["Failed".data] := by
  decide

/-! ## Test Runner (src/backend/app/agents/test_runner.py)

The sandbox executions (`run_in_sandbox`) are external: a `TestRunnerEnv`
oracle supplies the exit code / stdout / stderr of the test invocation,
the ruff invocation, and the flake8 fallback invocation. -/

/-- `test_runner._classify_error`: literal-alternation regexes checked in
order. -/
def classifyTR (msg : Str) : BugType :=
  if hasSub "IndentationError".data msg || hasSub "TabError".data msg then
    .INDENTATION
  else if hasSub "SyntaxError".data msg then .SYNTAX
  else if hasSub "ImportError".data msg || hasSub "ModuleNotFoundError".data msg then
    .IMPORT
  else if hasSub "TypeError".data msg then .TYPE_ERROR
  else if hasSub "NameError".data msg || hasSub "AttributeError".data msg then
    .LOGIC
  else .UNKNOWN

/-- The greedy group-1/group-2 capture of
`re.search(r'File "(.+)", line (\d+)', …)` at a fixed start: the longest
newline-free prefix followed by `", line ` and at least one digit. -/
def lineRefCapture (rest : Str) : Option (Str × Nat) :=
  match (List.range (rest.length + 1)).reverse.find? (fun j =>
      decide (1 ≤ j) && !(rest.take j).contains '\n' &&
      "\", line ".data.isPrefixOf (rest.drop j) &&
      !(takeDigits (rest.drop (j + 8))).isEmpty) with
  | some j => some (rest.take j, digitsToNat (takeDigits (rest.drop (j + 8))))
  | none => none

/-- `re.search(r'File "(.+)", line (\d+)', s)`: leftmost match. -/
def searchFileLineRef : Str → Option (Str × Nat)
  | [] => none
  | c :: t =>
    if "File \"".data.isPrefixOf (c :: t) then
      match lineRefCapture ((c :: t).drop 6) with
      | some r => some r
      | none => searchFileLineRef t
    else searchFileLineRef t

/-- The greedy capture of `re.search(r"FAILED (.+\.py)", …)` at a fixed
start: the longest prefix of length ≥ 4 ending in `.py`. -/
def failedFileCapture (rest : Str) : Option Str :=
  match (List.range (rest.length + 1)).reverse.find? (fun j =>
      decide (4 ≤ j) && ".py".data.isSuffixOf (rest.take j) &&
      !(rest.take j).contains '\n') with
  | some j => some (rest.take j)
  | none => none

/-- `_FAILED_FILE_RE.search(line)`: leftmost `FAILED (.+\.py)` match. -/
def searchFailedFile : Str → Option Str
  | [] => none
  | c :: t =>
    if "FAILED ".data.isPrefixOf (c :: t) then
      match failedFileCapture ((c :: t).drop 7) with
      | some r => some r
      | none => searchFailedFile t
    else searchFailedFile t

/-- The suffix after the last occurrence of `sep` (Python
`s.split(sep)[-1]` for a separator with no proper self-overlap). -/
def afterLastOcc (sep s : Str) : Str :=
  let occs := (List.range s.length).filter (fun i => sep.isPrefixOf (s.drop i))
  if occs.isEmpty then s else s.drop (occs.getLastD 0 + sep.length)

/-- Python `s.split(sep)[0]`: the prefix before the first occurrence. -/
def beforeFirstSep (sep : Str) : Str → Str
  | [] => []
  | c :: t =>
    if sep.isPrefixOf (c :: t) then [] else c :: beforeFirstSep sep t

/-- `"\n".join`. -/
def joinNL (ls : List Str) : Str := (ls.intersperse ['\n']).flatten

/-- `models.TestFailure`. -/
structure TestFailure where
  file : Str
  line : Option Int := none
  error_message : Str
  bug_type : BugType := .UNKNOWN
  raw_output : Option Str := none
deriving DecidableEq, Repr

/-- A failure emitted by the `_parse_failures` loop. -/
def mkParsedFailure (cf msg : Str) : TestFailure :=
  { file := cf
    line := (searchFileLineRef msg).map (fun r => (r.2 : Int))
    error_message := msg.take 500
    bug_type := classifyTR msg
    raw_output := some msg }

/-- The loop state of `_parse_failures`. -/
structure ParseSt where
  currentFile : Option Str
  msgLines : List Str
  failures : List TestFailure
deriving DecidableEq, Repr

/-- One iteration of the `for line in combined.splitlines()` loop of
`_parse_failures` (test_runner.py lines 50–79). -/
def parseLineStep (st : ParseSt) (line : Str) : ParseSt :=
  let cf := match searchFailedFile line with
    | some g => some g
    | none => st.currentFile
  if "FAILED ".data.isPrefixOf line ∨ hasSub "ERROR".data (pyUpper line) then
    -- Python truthiness on line 58: `current_file` must be a non-empty
    -- string (it can be set to "" by the line-76 reassignment)
    let emitted := st.msgLines ≠ [] ∧ strTruthy (cf.getD []) = true
    let failures' :=
      if emitted then st.failures ++ [mkParsedFailure (cf.getD []) (joinNL st.msgLines)]
      else st.failures
    let msg' := if emitted then [] else st.msgLines
    let cf' :=
      if hasSub "FAILED".data line then
        some (pyStrip (beforeFirstSep "::".data (afterLastOcc "FAILED ".data line)))
      else cf
    { currentFile := cf', msgLines := msg', failures := failures' }
  else
    if (pyStrip line).isEmpty then { st with currentFile := cf }
    else { currentFile := cf, msgLines := st.msgLines ++ [line],
           failures := st.failures }

/-- `s.replace(old, new)` (all occurrences, left scan). -/
def replaceSub (old new : Str) : Str → Str
  | [] => []
  | c :: t =>
    if h : old ≠ [] ∧ old.isPrefixOf (c :: t) = true then
      new ++ replaceSub old new ((c :: t).drop old.length)
    else c :: replaceSub old new t
termination_by s => s.length
decreasing_by
  · simp_wf
    have h1 : 1 ≤ old.length := by
      cases hp : old with
      | nil => exact absurd hp h.1
      | cons x xs => simp
    simp [List.length_drop]
    omega
  · simp_wf

/-- `test_runner._parse_failures(stdout, stderr, repo_dir)`. -/
def parse_failures (stdout stderr repoDir : Str) : List TestFailure :=
  let combined := stdout ++ '\n' :: stderr
  let st := (splitLines combined).foldl parseLineStep ⟨none, [], []⟩
  if st.failures.isEmpty ∧ strTruthy stderr then
    [{ file := match searchFileLineRef stderr with
        | some r => replaceSub (repoDir ++ ['/']) [] r.1
        | none => "unknown".data
       line := (searchFileLineRef stderr).map (fun r => (r.2 : Int))
       error_message := stderr.take 800
       bug_type := classifyTR stderr
       raw_output := some stderr }]
  else st.failures

/-- Parse the tail `:(\d+):\d+: ([EWF]\d+) (.+)$` of a lint line. -/
def lintRestParse (r : Str) : Option (Nat × Str × Str) :=
  match r with
  | ':' :: r1 =>
    let ds1 := takeDigits r1
    if ds1.isEmpty then none else
    match r1.drop ds1.length with
    | ':' :: r2 =>
      let ds2 := takeDigits r2
      if ds2.isEmpty then none else
      match r2.drop ds2.length with
      | ':' :: ' ' :: (c :: r4) =>
        if c = 'E' ∨ c = 'W' ∨ c = 'F' then
          let ds3 := takeDigits r4
          if ds3.isEmpty then none else
          match r4.drop ds3.length with
          | ' ' :: r5 => if r5.isEmpty then none else some (digitsToNat ds1, c :: ds3, r5)
          | _ => none
        else none
      | _ => none
    | _ => none
  | _ => none

/-- `re.match(r"^(.+\.py):(\d+):\d+: ([EWF]\d+) (.+)$", s)`: the anchored
lint-line pattern, greedy on group 1. -/
def lintMatch (s : Str) : Option (Str × Nat × Str × Str) :=
  match (List.range (s.length + 1)).reverse.find? (fun j =>
      decide (4 ≤ j) && ".py".data.isSuffixOf (s.take j) &&
      !(s.take j).contains '\n' && (lintRestParse (s.drop j)).isSome) with
  | some j => (lintRestParse (s.drop j)).map (fun r => (s.take j, r))
  | none => none

/-- `test_runner._parse_lint_failures(output, repo_dir)`. -/
def parse_lint_failures (output repoDir : Str) : List TestFailure :=
  (splitLines output).filterMap (fun line =>
    (lintMatch (pyStrip line)).map (fun r =>
      { file := replaceSub (repoDir ++ ['\\']) []
                  (replaceSub (repoDir ++ ['/']) [] r.1)
        line := some (r.2.1 : Int)
        error_message := r.2.2.1 ++ ": ".data ++ r.2.2.2
        bug_type := BugType.LINTING
        raw_output := some line }))

/-- Outcome of one sandboxed command. -/
structure SandboxResult where
  exitCode : Int
  stdout : Str
  stderr : Str
deriving DecidableEq, Repr

/-- The three sandbox invocations made by one `TestRunnerAgent.run`. -/
structure TestRunnerEnv where
  testRun : SandboxResult
  lintRun : SandboxResult
  flakeRun : SandboxResult
deriving DecidableEq, Repr

/-- `raw = (stderr or stdout or "Unknown test error").strip()`
(test_runner.py line 181). -/
def synthRaw (stdout stderr : Str) : Str :=
  pyStrip (if strTruthy stderr then stderr
    else if strTruthy stdout then stdout else "Unknown test error".data)

/-- The synthetic failure built at test_runner.py lines 180–204 when a
failing run parsed no structured failures. -/
def synthFailure (stdout stderr repoDir : Str) : TestFailure :=
  match searchFileLineRef (synthRaw stdout stderr) with
  | some r =>
    { file := relpathM r.1 repoDir, line := some (r.2 : Int)
      error_message := (synthRaw stdout stderr).take 800
      bug_type := classifyTR (synthRaw stdout stderr)
      raw_output := some (synthRaw stdout stderr) }
  | none =>
    { file := "unknown".data, line := none
      error_message := (synthRaw stdout stderr).take 800
      bug_type := classifyTR (synthRaw stdout stderr)
      raw_output := some (synthRaw stdout stderr) }

/-- The `failures` list assembled by `TestRunnerAgent.run`
(test_runner.py lines 172–235). -/
def testRunnerFailures (env : TestRunnerEnv) (repoDir : Str) : List TestFailure :=
  let base :=
    if env.testRun.exitCode = 0 then []
    else
      let parsed := parse_failures env.testRun.stdout env.testRun.stderr repoDir
      if parsed.isEmpty then
        [synthFailure env.testRun.stdout env.testRun.stderr repoDir]
      else parsed
  let withLint :=
    if env.lintRun.exitCode ≠ 0 ∧ strTruthy (pyStrip env.lintRun.stdout) then
      base ++ parse_lint_failures env.lintRun.stdout repoDir
    else base
  if env.lintRun.exitCode ≠ 0 ∧ ¬strTruthy (pyStrip env.lintRun.stdout) then
    if env.flakeRun.exitCode ≠ 0 ∧ strTruthy (pyStrip env.flakeRun.stdout) then
      withLint ++ parse_lint_failures env.flakeRun.stdout repoDir
    else withLint
  else withLint

/-- **C9.**  When the test exit status indicates failure and structured
parsing yields no failure records, `TestRunnerAgent.run` synthesizes
exactly one failure, placed first in the failure list: its category is
`_classify_error` of the raw text (stderr, else stdout, else the fixed
fallback text, stripped), its file/line come from the first
`File "…", line N` reference in that raw text, and the file defaults to
the sentinel `"unknown"` with no line number when no reference exists;
moreover a failing run never produces an empty failure list. -/
theorem testRunner_synthesizes_single_failure (env : TestRunnerEnv)
    (repoDir : Str) (hfail : env.testRun.exitCode ≠ 0) :
    (parse_failures env.testRun.stdout env.testRun.stderr repoDir = [] →
      ∃ lintRest,
        testRunnerFailures env repoDir =
          synthFailure env.testRun.stdout env.testRun.stderr repoDir :: lintRest ∧
        ((synthFailure env.testRun.stdout env.testRun.stderr repoDir).bug_type
            = classifyTR (synthRaw env.testRun.stdout env.testRun.stderr) ∧
         (searchFileLineRef (synthRaw env.testRun.stdout env.testRun.stderr) = none →
            (synthFailure env.testRun.stdout env.testRun.stderr repoDir).file
                = "unknown".data ∧
            (synthFailure env.testRun.stdout env.testRun.stderr repoDir).line
                = none) ∧
         (∀ g n,
            searchFileLineRef (synthRaw env.testRun.stdout env.testRun.stderr)
                = some (g, n) →
            (synthFailure env.testRun.stdout env.testRun.stderr repoDir).file
                = relpathM g repoDir ∧
            (synthFailure env.testRun.stdout env.testRun.stderr repoDir).line
                = some (n : Int)))) ∧
    testRunnerFailures env repoDir ≠ [] := by
  constructor
  · intro hparse
    refine ⟨?_, ?_, ?_⟩
    · exact (if env.lintRun.exitCode ≠ 0 ∧ strTruthy (pyStrip env.lintRun.stdout) then
        parse_lint_failures env.lintRun.stdout repoDir else []) ++
        (if env.lintRun.exitCode ≠ 0 ∧ ¬strTruthy (pyStrip env.lintRun.stdout) then
          if env.flakeRun.exitCode ≠ 0 ∧ strTruthy (pyStrip env.flakeRun.stdout) then
            parse_lint_failures env.flakeRun.stdout repoDir
          else []
        else [])
    · unfold testRunnerFailures
      rw [if_neg hfail, hparse]
      simp only [List.isEmpty_nil, if_true]
      split_ifs <;> simp
    · refine ⟨?_, ?_, ?_⟩
      · unfold synthFailure
        cases hs : searchFileLineRef
            (synthRaw env.testRun.stdout env.testRun.stderr) <;> rfl
      · intro hs
        unfold synthFailure
        rw [hs]
        exact ⟨rfl, rfl⟩
      · intro g n hs
        unfold synthFailure
        rw [hs]
        exact ⟨rfl, rfl⟩
  · unfold testRunnerFailures
    rw [if_neg hfail]
    cases hp : (parse_failures env.testRun.stdout env.testRun.stderr repoDir).isEmpty <;>
      split_ifs <;>
        simp_all [List.isEmpty_iff, List.append_eq_nil]

/-- Concrete environment for the C9 witness: exit code 2 with empty
output (e.g. a pytest collection crash that printed nothing). -/
def envSilentCrash : TestRunnerEnv :=
  { testRun := ⟨2, [], []⟩, lintRun := ⟨0, [], []⟩, flakeRun := ⟨0, [], []⟩ }

/-- **C9 witness.**  On the silent-crash environment structured parsing
finds nothing and exactly the sentinel `"unknown"` failure is produced. -/
theorem testRunner_synthesizes_single_failure_witness :
    (2 : Int) ≠ 0 ∧
    parse_failures [] [] "/repo".data = [] ∧
    testRunnerFailures envSilentCrash "/repo".data ≠ [] ∧
    testRunnerFailures envSilentCrash "/repo".data
      = [synthFailure [] [] "/repo".data] :=
  ⟨by decide, by decide,
    (testRunner_synthesizes_single_failure envSilentCrash "/repo".data
      (by decide)).2,
    by decide⟩

/-! ## Bug Classifier agent run (src/backend/app/agents/bug_classifier.py)

`BugClassifierAgent.run` is pure given the test-result dict. -/

/-- The `.value` string of a `BugType` member. -/
def BugType.value : BugType → Str
  | .LINTING => "LINTING".data
  | .SYNTAX => "SYNTAX".data
  | .LOGIC => "LOGIC".data
  | .TYPE_ERROR => "TYPE_ERROR".data
  | .IMPORT => "IMPORT".data
  | .INDENTATION => "INDENTATION".data
  | .UNKNOWN => "UNKNOWN".data

/-- The test-result dict as consumed by the orchestrator, the classifier
and the CI monitor: keys `passed`, `failures`, `output`. -/
structure TestResultModel where
  passed : Bool
  failures : List TestFailure
  output : Str
deriving DecidableEq, Repr

/-- `BugClassifierAgent.run(test_result)`: classify each failure on
`error_message + " " + (raw_output or "")`, then parse flake8/ruff-style
lines out of `output` when the `[EWF]\d{3}` gate matches. -/
def classifierRun (tr : TestResultModel) : List ClassifiedFailure :=
  tr.failures.map (fun f =>
    { file := f.file, line := f.line
      bug_type := (classifyBC (f.error_message ++ ' ' :: (f.raw_output.getD []))).value
      error_message := f.error_message }) ++
  (if searchEWF3 tr.output then
    (splitLines tr.output).filterMap (fun line =>
      (lintMatch line).map (fun r =>
        { file := r.1, line := some (r.2.1 : Int)
          bug_type := BugType.LINTING.value
          error_message := r.2.2.1 ++ ": ".data ++ r.2.2.2 }))
   else [])

/-! ## CI Monitor (src/backend/app/agents/ci_monitor.py) -/

/-- `models.CITimepoint` (the wall-clock `timestamp` string is omitted:
it is external nondeterminism no claim mentions). -/
structure CITimepoint where
  iteration : Nat
  status : CIStatus
  failures : List Str
  post_status : Option CIStatus := none
  post_failures : List Str := []
deriving DecidableEq, Repr

/-- `CIMonitorAgent.record(iteration, test_result, post_test_result)`. -/
def ciRecord (iteration : Nat) (tr : TestResultModel)
    (post : Option TestResultModel) : CITimepoint :=
  { iteration := iteration
    status := if tr.passed then CIStatus.PASSED else CIStatus.FAILED
    failures := tr.failures.map (fun f => f.error_message.take 200)
    post_status := post.map (fun p => if p.passed then CIStatus.PASSED else CIStatus.FAILED)
    post_failures :=
      (post.map (fun p => p.failures.map (fun f => f.error_message.take 200))).getD [] }

/-! ## Repair Orchestrator (src/backend/app/agents/orchestrator.py)

External collaborators per run: `clone_repo`, `checkout_new_branch` and
`RepoAnalyzerAgent.run` may raise (modelled as `Except Str Unit`; the
error value is `str(e)`).  `TestRunnerAgent.run`, `FixGeneratorAgent.run`,
`CommitAgent.run` and `push_changes` catch every exception internally
(run_in_sandbox / per-call try blocks) and cannot raise; their outcomes
are oracle inputs per iteration. -/

/-- Per-iteration external outcomes. -/
structure IterEnv where
  preTest : TestResultModel
  fixEnv : FixEnv
  commitCount : Nat
  postTest : TestResultModel

/-- External outcomes of one whole orchestrator run. -/
structure OrchEnv where
  cloneOk : Except Str Unit
  branchOk : Except Str Unit
  analyzeOk : Except Str Unit
  iter : Nat → IterEnv
  finalTest : TestResultModel
  elapsedFast : Bool

/-- Loop-carried orchestrator state (the fields of the mutated
`RunResult` plus the local counters of `AgentOrchestrator.run`). -/
structure LoopSt where
  timeline : List CITimepoint
  trace : List Nat
  totalFailuresInitial : Nat
  totalFixes : Nat
  proposals : List FixProposal
  ciFinal : CIStatus

/-- `pct_base = 15 + int((iteration - 1) * (70 / retry_limit))`
(exact for all permitted retry limits; see the file header). -/
def pctBase (R i : Nat) : Nat := 15 + 70 * (i - 1) / R

/-- One iteration of the fix loop (orchestrator.py lines 105–156).
Returns the new state and whether the loop `break`s. -/
def runIter (env : OrchEnv) (repoDir : Str) (R i : Nat) (st : LoopSt) :
    LoopSt × Bool :=
  let pct := pctBase R i
  let e := env.iter i
  let tr := e.preTest
  let st := { st with trace := st.trace ++ [pct] }
  let st :=
    if i = 1 then { st with totalFailuresInitial := tr.failures.length } else st
  if tr.passed then
    ({ st with timeline := st.timeline ++ [ciRecord i tr none]
               ciFinal := CIStatus.PASSED
               trace := st.trace ++ [pct + 5] }, true)
  else
    let st := { st with trace := st.trace ++ [pct + 2] }
    let classified := classifierRun tr
    if classified.isEmpty then
      ({ st with timeline := st.timeline ++ [ciRecord i tr none] }, true)
    else
      let st := { st with trace := st.trace ++ [pct + 4] }
      let proposals := fixGenProposals e.fixEnv repoDir classified
      let st := { st with proposals := st.proposals ++ proposals }
      let fixed := proposals.filter (fun p => p.status = "Fixed".data)
      if fixed.isEmpty then
        ({ st with timeline := st.timeline ++ [ciRecord i tr none] }, true)
      else
        let st := { st with trace := st.trace ++ [pct + 6]
                            totalFixes := st.totalFixes + e.commitCount }
        let st := { st with trace := st.trace ++ [pct + 8] }
        let post := e.postTest
        let st := { st with timeline := st.timeline ++ [ciRecord i tr (some post)] }
        if post.passed then
          ({ st with ciFinal := CIStatus.PASSED
                     trace := st.trace ++ [pct + 10] }, true)
        else (st, false)

/-- The `for iteration in range(1, retry_limit + 1)` loop, with explicit
fuel (`R + 1` at the top call, so the fuel never runs out); returns the
final state and whether the loop exited via `break`. -/
def runLoop (env : OrchEnv) (repoDir : Str) (R : Nat) :
    Nat → Nat → LoopSt → LoopSt × Bool
  | 0, _, st => (st, false)
  | fuel + 1, i, st =>
    if R < i then (st, false)
    else
      match runIter env repoDir R i st with
      | (st', true) => (st', true)
      | (st', false) => runLoop env repoDir R fuel (i + 1) st'

/-- The result fields the claims are about. -/
structure RunResultModel where
  status : RunStatus
  progress : Nat
  error : Option Str
  trace : List Nat
  timeline : List CITimepoint
  score : Option ScoreBreakdown
  totalFixes : Nat
  totalFailuresInitial : Nat
  ciFinal : CIStatus
  fixes : List FixProposal

/-- The result assembled by the top-level `except` handler
(orchestrator.py lines 206–211): status Failed, the exception message in
`error`, progress forced to 100; `ci_timeline`, `fixes` and `score` were
never assigned and keep their defaults. -/
def failedRunResult (e : Str) (trace : List Nat) : RunResultModel :=
  { status := RunStatus.FAILED, progress := 100, error := some e
    trace := trace, timeline := [], score := none
    totalFixes := 0, totalFailuresInitial := 0
    ciFinal := CIStatus.FAILED, fixes := [] }

/-- `AgentOrchestrator.run` (orchestrator.py lines 55–213).  The progress
percentages reported through `_progress` are collected in `trace`. -/
def orchestratorRun (env : OrchEnv) (repoDir : Str) (R : Nat) : RunResultModel :=
  match env.cloneOk with
  | .error e => failedRunResult e [5]
  | .ok _ =>
    match env.branchOk with
    | .error e => failedRunResult e [5, 10]
    | .ok _ =>
      match env.analyzeOk with
      | .error e => failedRunResult e [5, 10, 15]
      | .ok _ =>
        let st0 : LoopSt :=
          { timeline := [], trace := [5, 10, 15], totalFailuresInitial := 0
            totalFixes := 0, proposals := [], ciFinal := CIStatus.FAILED }
        let lp := runLoop env repoDir R (R + 1) 1 st0
        let st := lp.1
        let st :=
          if lp.2 then st
          else
            if env.finalTest.passed then { st with ciFinal := CIStatus.PASSED }
            else
              { st with timeline := st.timeline ++ [ciRecord R env.finalTest none] }
        let st := { st with trace := st.trace ++ [90] }
        { status := RunStatus.COMPLETED, progress := 100, error := none
          trace := st.trace ++ [100], timeline := st.timeline
          score := some (computeScore st.totalFailuresInitial st.totalFixes
            env.elapsedFast st.ciFinal)
          totalFixes := st.totalFixes
          totalFailuresInitial := st.totalFailuresInitial
          ciFinal := st.ciFinal, fixes := st.proposals }

/-- **C6.**  If the very first test run passes (with the set-up steps
succeeding), the orchestrator stops immediately: exactly one CITimepoint,
recorded at iteration 1 with status Passed, final CI status Passed, and
zero fixes applied. -/
theorem orchestrator_first_pass (env : OrchEnv) (repoDir : Str) (R : Nat)
    (hR : 1 ≤ R)
    (hc : env.cloneOk = .ok ()) (hb : env.branchOk = .ok ())
    (ha : env.analyzeOk = .ok ())
    (hpass : (env.iter 1).preTest.passed = true) :
    (orchestratorRun env repoDir R).timeline
        = [ciRecord 1 (env.iter 1).preTest none] ∧
    (orchestratorRun env repoDir R).timeline.length = 1 ∧
    (ciRecord 1 (env.iter 1).preTest none).iteration = 1 ∧
    (ciRecord 1 (env.iter 1).preTest none).status = CIStatus.PASSED ∧
    (orchestratorRun env repoDir R).ciFinal = CIStatus.PASSED ∧
    (orchestratorRun env repoDir R).totalFixes = 0 := by
  have hloop :
      runLoop env repoDir R (R + 1) 1
        { timeline := [], trace := [5, 10, 15], totalFailuresInitial := 0
          totalFixes := 0, proposals := [], ciFinal := CIStatus.FAILED }
      = ({ timeline := [ciRecord 1 (env.iter 1).preTest none]
           trace := [5, 10, 15] ++ [pctBase R 1] ++ [pctBase R 1 + 5]
           totalFailuresInitial := (env.iter 1).preTest.failures.length
           totalFixes := 0, proposals := [], ciFinal := CIStatus.PASSED }, true) := by
    cases R with
    | zero => exact absurd hR (by decide)
    | succ R' =>
      rw [runLoop]
      rw [if_neg (by omega)]
      rw [runIter]
      simp only [hpass, if_pos, if_true]
      rfl
  simp only [orchestratorRun, hc, hb, ha, hloop]
  refine ⟨rfl, rfl, rfl, ?_, rfl, rfl⟩
  simp [ciRecord, hpass]

/-- An environment whose first test run passes. -/
def envFirstPass : OrchEnv :=
  { cloneOk := .ok (), branchOk := .ok (), analyzeOk := .ok ()
    iter := fun _ => ⟨⟨true, [], []⟩,
      ⟨fun _ => false, fun _ => none, fun _ _ _ => none⟩, 0, ⟨true, [], []⟩⟩
    finalTest := ⟨true, [], []⟩, elapsedFast := true }

/-- **C6 witness** at retry limit 5. -/
theorem orchestrator_first_pass_witness :
    (1 ≤ 5 ∧ (envFirstPass.iter 1).preTest.passed = true) ∧
    (orchestratorRun envFirstPass "/repo".data 5).timeline
        = [ciRecord 1 (envFirstPass.iter 1).preTest none] ∧
    (orchestratorRun envFirstPass "/repo".data 5).ciFinal = CIStatus.PASSED ∧
    (orchestratorRun envFirstPass "/repo".data 5).totalFixes = 0 :=
  ⟨⟨by decide, rfl⟩,
    (orchestrator_first_pass envFirstPass "/repo".data 5 (by decide)
      rfl rfl rfl rfl).1,
    (orchestrator_first_pass envFirstPass "/repo".data 5 (by decide)
      rfl rfl rfl rfl).2.2.2.2.1,
    (orchestrator_first_pass envFirstPass "/repo".data 5 (by decide)
      rfl rfl rfl rfl).2.2.2.2.2⟩

/-! ### C2: timeline shape -/

/-- Every path through one loop iteration records exactly one timepoint,
numbered with the current iteration. -/
theorem runIter_timeline (env : OrchEnv) (repoDir : Str) (R i : Nat)
    (st : LoopSt) :
    ∃ tp, (runIter env repoDir R i st).1.timeline = st.timeline ++ [tp] ∧
      tp.iteration = i := by
  simp only [runIter]
  split_ifs <;> exact ⟨_, rfl, rfl⟩

theorem runLoop_timeline (env : OrchEnv) (repoDir : Str) (R : Nat) :
    ∀ (fuel n : Nat) (st : LoopSt), n ≤ R → R + 1 ≤ fuel + n →
      st.timeline.map (·.iteration) = List.range' 1 n →
      ((runLoop env repoDir R fuel (n + 1) st).1.timeline.map (·.iteration)
          = List.range' 1 R ∧ (runLoop env repoDir R fuel (n + 1) st).2 = false) ∨
      (∃ k, n + 1 ≤ k ∧ k ≤ R ∧
        (runLoop env repoDir R fuel (n + 1) st).1.timeline.map (·.iteration)
            = List.range' 1 k ∧ (runLoop env repoDir R fuel (n + 1) st).2 = true) := by
  intro fuel
  induction fuel with
  | zero => intro n st h1 h2 _; omega
  | succ fuel ih =>
    intro n st h1 h2 hmap
    rw [runLoop]
    by_cases hiR : R < n + 1
    · rw [if_pos hiR]
      left
      have hnR : n = R := by omega
      rw [hmap, hnR]
      exact ⟨rfl, rfl⟩
    · rw [if_neg hiR]
      obtain ⟨tp, htl, hit⟩ := runIter_timeline env repoDir R (n + 1) st
      rcases hri : runIter env repoDir R (n + 1) st with ⟨st', b⟩
      rw [hri] at htl
      have hmap' : st'.timeline.map (·.iteration) = List.range' 1 (n + 1) := by
        simp only at htl
        rw [htl, List.map_append, hmap, List.map_cons, List.map_nil, hit,
          List.range'_concat]
        have harith : 1 + 1 * n = n + 1 := by omega
        rw [harith]
      cases b
      · have hrec := ih (n + 1) st' (by omega) (by omega) hmap'
        rcases hrec with ⟨hm, hb⟩ | ⟨k, hk1, hk2, hm, hb⟩
        · exact Or.inl ⟨hm, hb⟩
        · exact Or.inr ⟨k, by omega, hk2, hm, hb⟩
      · exact Or.inr ⟨n + 1, le_refl _, by omega, hmap', rfl⟩

/-- **C2 (amended).**  The timeline's iteration numbers are `1, 2, …, k`
for some `k ≤ R` — strictly increasing from 1 with no gaps — except that
when the loop exhausts all `R` iterations and the final settle test run
still fails, one extra timepoint numbered `R` is appended: the timeline is
then `1, …, R, R` with `R + 1` entries.  In every case the length is at
most `R + 1`. -/
theorem orchestrator_timeline_bounds (env : OrchEnv) (repoDir : Str) (R : Nat)
    (hR : 1 ≤ R) :
    (orchestratorRun env repoDir R).timeline.length ≤ R + 1 ∧
    ((∃ k, k ≤ R ∧ (orchestratorRun env repoDir R).timeline.map (·.iteration)
        = List.range' 1 k) ∨
      (orchestratorRun env repoDir R).timeline.map (·.iteration)
        = List.range' 1 R ++ [R]) := by
  rcases hc : env.cloneOk with e | u
  · simp only [orchestratorRun, hc]
    exact ⟨by simp [failedRunResult], Or.inl ⟨0, by omega, by simp [failedRunResult]⟩⟩
  · cases u
    rcases hb : env.branchOk with e | u
    · simp only [orchestratorRun, hc, hb]
      exact ⟨by simp [failedRunResult], Or.inl ⟨0, by omega, by simp [failedRunResult]⟩⟩
    · cases u
      rcases ha : env.analyzeOk with e | u
      · simp only [orchestratorRun, hc, hb, ha]
        exact ⟨by simp [failedRunResult], Or.inl ⟨0, by omega, by simp [failedRunResult]⟩⟩
      · cases u
        simp only [orchestratorRun, hc, hb, ha]
        have hl := runLoop_timeline env repoDir R (R + 1) 0
          { timeline := [], trace := [5, 10, 15], totalFailuresInitial := 0
            totalFixes := 0, proposals := [], ciFinal := CIStatus.FAILED }
          (by omega) (by omega) (by simp)
        simp only [Nat.zero_add] at hl
        rcases hlp : runLoop env repoDir R (R + 1) 1
            { timeline := [], trace := [5, 10, 15], totalFailuresInitial := 0
              totalFixes := 0, proposals := [], ciFinal := CIStatus.FAILED }
          with ⟨stL, b⟩
        rw [hlp] at hl
        simp only
        cases b
        · rcases hl with ⟨hm, _⟩ | ⟨k, _, _, _, hb'⟩
          · by_cases hft : env.finalTest.passed
            · simp only [hft, if_true, if_false, Bool.false_eq_true]
              constructor
              · have : stL.timeline.length = R := by
                  have := congrArg List.length hm
                  simpa using this
                simp [this]
              · exact Or.inl ⟨R, le_refl R, hm⟩
            · simp only [hft, Bool.false_eq_true, if_false]
              constructor
              · have : stL.timeline.length = R := by
                  have := congrArg List.length hm
                  simpa using this
                simp [this]
              · right
                rw [List.map_append, hm]
                simp [ciRecord]
          · cases hb'
        · rcases hl with ⟨_, hb'⟩ | ⟨k, _, hk2, hm, _⟩
          · cases hb'
          · simp only [if_true]
            constructor
            · have : stL.timeline.length = k := by
                have := congrArg List.length hm
                simpa using this
              simp [this]; omega
            · exact Or.inl ⟨k, hk2, hm⟩

/-- A pre-fix test result with one classifiable Syntax failure. -/
def trFailSyntax : TestResultModel :=
  { passed := false
    failures := [{ file := "a.py".data, line := none
                   error_message := "SyntaxError: bad".data
                   bug_type := .SYNTAX, raw_output := none }]
    output := [] }

/-- A fix environment whose LLM always rewrites the one file. -/
def fixEnvRewrites : FixEnv :=
  { pathExists := fun p => p = "/repo/a.py".data
    content := fun p => if p = "/repo/a.py".data then some "old\n".data else none
    llm := fun _ _ _ => some "new".data }

/-- Orchestrator environment where every iteration applies a fix but
tests keep failing, including the final settle run. -/
def envNeverGreen : OrchEnv :=
  { cloneOk := .ok (), branchOk := .ok (), analyzeOk := .ok ()
    iter := fun _ => ⟨trFailSyntax, fixEnvRewrites, 1, trFailSyntax⟩
    finalTest := trFailSyntax, elapsedFast := true }

/-- **C2 counterexample.**  With retry limit 1 the loop exhausts, the
settle run fails and is recorded a second time under iteration number 1:
the timeline has 2 > R timepoints and its iteration numbers `[1, 1]` are
not strictly increasing. -/
theorem orchestrator_duplicate_final_record :
    (orchestratorRun envNeverGreen "/repo".data 1).timeline.map (·.iteration)
        = [1, 1] ∧
    (orchestratorRun envNeverGreen "/repo".data 1).timeline.length = 2 ∧
    ¬ ((orchestratorRun envNeverGreen "/repo".data 1).timeline.length ≤ 1) := by
  decide

/-- **C2 witness** of the amended bound at the same environment, retry
limit 1: length `2 ≤ R + 1` and the `1, …, R, R` shape. -/
theorem orchestrator_timeline_bounds_witness :
    (1 ≤ 1) ∧
    ((orchestratorRun envNeverGreen "/repo".data 1).timeline.length ≤ 1 + 1 ∧
      ((∃ k, k ≤ 1 ∧
          (orchestratorRun envNeverGreen "/repo".data 1).timeline.map (·.iteration)
            = List.range' 1 k) ∨
        (orchestratorRun envNeverGreen "/repo".data 1).timeline.map (·.iteration)
          = List.range' 1 1 ++ [1])) :=
  ⟨le_refl 1, orchestrator_timeline_bounds envNeverGreen "/repo".data 1 (le_refl 1)⟩

/-! ### C3: progress monotonicity -/

/-- Is a percentage sequence non-decreasing? -/
def nondecreasing : List Nat → Bool
  | a :: b :: t => a ≤ b && nondecreasing (b :: t)
  | _ => true

/-- **C3 counterexample.**  At the permitted retry limit 10 the reported
progress decreases: iteration 1 ends at 23 % and iteration 2 starts at
`15 + int(1 * (70 / 10)) = 22` %. -/
theorem orchestrator_progress_decreases_at_limit_10 :
    nondecreasing (orchestratorRun envNeverGreen "/repo".data 10).trace = false ∧
    pctBase 10 1 + 8 = 23 ∧ pctBase 10 2 = 22 := by
  decide

/-- "The last element, if any, is at most `n`." -/
def lastLe (l : List Nat) (n : Nat) : Prop :=
  ∀ y, l.getLast? = some y → y ≤ n

theorem lastLe_mono {l : List Nat} {m n : Nat} (h : lastLe l m) (hmn : m ≤ n) :
    lastLe l n := fun y hy => le_trans (h y hy) hmn

theorem lastLe_of_getLast? {l : List Nat} {x n : Nat}
    (h : l.getLast? = some x) (hxn : x ≤ n) : lastLe l n := by
  intro y hy
  rw [h, Option.some.injEq] at hy
  omega

theorem nondecr_append_one (l : List Nat) (x : Nat)
    (hnd : nondecreasing l = true) (hl : lastLe l x) :
    nondecreasing (l ++ [x]) = true ∧ (l ++ [x]).getLast? = some x := by
  refine ⟨?_, by simp⟩
  induction l with
  | nil => rfl
  | cons a t ih =>
    cases t with
    | nil =>
      have hax : a ≤ x := hl a rfl
      simp [nondecreasing, hax]
    | cons b u =>
      rw [List.cons_append, List.cons_append]
      have hstep : (a ≤ b) = true ∧ nondecreasing (b :: u) = true := by
        have := hnd
        rw [nondecreasing] at this
        simpa using this
      rw [nondecreasing]
      have htail := ih hstep.2 (by
        intro y hy
        apply hl
        rw [List.getLast?_cons_cons]
        exact hy)
      rw [List.cons_append] at htail
      simp only [htail, Bool.and_true]
      simpa using hstep.1

/-- `pctBase R 1 = 15`. -/
theorem pctBase_one (R : Nat) : pctBase R 1 = 15 := by
  simp [pctBase]

/-- Division bound: the loop percentages stay at or below 85. -/
theorem pctBase_le_85 (R i : Nat) (hR : 1 ≤ R) (hi : i ≤ R + 1) :
    pctBase R i ≤ 85 := by
  unfold pctBase
  have h1 : 70 * (i - 1) ≤ 70 * R := by
    apply Nat.mul_le_mul_left
    omega
  have h2 : 70 * (i - 1) / R ≤ 70 * R / R := Nat.div_le_div_right h1
  have h3 : 70 * R / R = 70 := by
    rw [Nat.mul_div_cancel]
    omega
  omega

/-- For retry limits up to 8 the in-loop percentages stay below 80. -/
theorem pctBase_add10_le_90 (R i : Nat) (hR1 : 1 ≤ R) (hR8 : R ≤ 8)
    (hi : i ≤ R) : pctBase R i + 10 ≤ 90 := by
  unfold pctBase
  have h1 : 70 * (i - 1) ≤ 70 * (R - 1) := by
    apply Nat.mul_le_mul_left
    omega
  have h2 : 70 * (i - 1) / R ≤ 70 * (R - 1) / R := Nat.div_le_div_right h1
  have h3 : 70 * (R - 1) / R ≤ 61 := by
    interval_cases R <;> decide
  omega

/-- The inter-iteration progress step: for retry limits up to 8 the next
iteration's base percentage is at least 8 above the current one. -/
theorem pctBase_step (R i : Nat) (hR1 : 1 ≤ R) (hR8 : R ≤ 8) (hi : 1 ≤ i) :
    pctBase R i + 8 ≤ pctBase R (i + 1) := by
  unfold pctBase
  have hdiv : 70 * (i - 1) / R + 70 / R ≤ (70 * (i - 1) + 70) / R := by
    rw [Nat.le_div_iff_mul_le (by omega : 0 < R)]
    rw [Nat.add_mul]
    have ha := Nat.div_mul_le_self (70 * (i - 1)) R
    have hb := Nat.div_mul_le_self 70 R
    omega
  have h70 : 8 ≤ 70 / R := by
    interval_cases R <;> decide
  have harg : 70 * (i + 1 - 1) = 70 * (i - 1) + 70 := by
    have : i + 1 - 1 = (i - 1) + 1 := by omega
    rw [this, Nat.mul_succ]
  rw [harg]
  omega

/-- Trace behaviour of one loop iteration: progress percentages stay
non-decreasing, never exceed `pct_base + 10`, and a non-breaking
iteration ends exactly at `pct_base + 8`. -/
theorem runIter_trace (env : OrchEnv) (repoDir : Str) (R i : Nat) (st : LoopSt)
    (hnd : nondecreasing st.trace = true)
    (hlast : lastLe st.trace (pctBase R i)) :
    (nondecreasing (runIter env repoDir R i st).1.trace = true ∧
     lastLe (runIter env repoDir R i st).1.trace (pctBase R i + 10)) ∧
    ((runIter env repoDir R i st).2 = false →
      (runIter env repoDir R i st).1.trace.getLast? = some (pctBase R i + 8)) := by
  have c1 := nondecr_append_one st.trace (pctBase R i) hnd hlast
  have cp5 := nondecr_append_one (st.trace ++ [pctBase R i]) (pctBase R i + 5)
    c1.1 (lastLe_of_getLast? c1.2 (by omega))
  have c2 := nondecr_append_one (st.trace ++ [pctBase R i]) (pctBase R i + 2)
    c1.1 (lastLe_of_getLast? c1.2 (by omega))
  have c3 := nondecr_append_one _ (pctBase R i + 4) c2.1
    (lastLe_of_getLast? c2.2 (by omega))
  have c4 := nondecr_append_one _ (pctBase R i + 6) c3.1
    (lastLe_of_getLast? c3.2 (by omega))
  have c5 := nondecr_append_one _ (pctBase R i + 8) c4.1
    (lastLe_of_getLast? c4.2 (by omega))
  have c6 := nondecr_append_one _ (pctBase R i + 10) c5.1
    (lastLe_of_getLast? c5.2 (by omega))
  simp only [runIter]
  split_ifs <;>
    first
      | exact ⟨⟨cp5.1, lastLe_of_getLast? cp5.2 (by omega)⟩, fun h => nomatch h⟩
      | exact ⟨⟨c2.1, lastLe_of_getLast? c2.2 (by omega)⟩, fun h => nomatch h⟩
      | exact ⟨⟨c3.1, lastLe_of_getLast? c3.2 (by omega)⟩, fun h => nomatch h⟩
      | exact ⟨⟨c6.1, lastLe_of_getLast? c6.2 (by omega)⟩, fun h => nomatch h⟩
      | exact ⟨⟨c5.1, lastLe_of_getLast? c5.2 (by omega)⟩, fun _ => c5.2⟩

/-- Trace behaviour of the whole loop, for retry limits up to 8. -/
theorem runLoop_trace (env : OrchEnv) (repoDir : Str) (R : Nat)
    (hR1 : 1 ≤ R) (hR8 : R ≤ 8) :
    ∀ (fuel i : Nat) (st : LoopSt), 1 ≤ i → i ≤ R + 1 →
      nondecreasing st.trace = true → lastLe st.trace (pctBase R i) →
      nondecreasing (runLoop env repoDir R fuel i st).1.trace = true ∧
      lastLe (runLoop env repoDir R fuel i st).1.trace 90 := by
  intro fuel
  induction fuel with
  | zero =>
    intro i st h1 h2 hnd hlast
    rw [runLoop]
    exact ⟨hnd, lastLe_mono hlast (by have := pctBase_le_85 R i hR1 h2; omega)⟩
  | succ fuel ih =>
    intro i st h1 h2 hnd hlast
    rw [runLoop]
    by_cases hiR : R < i
    · rw [if_pos hiR]
      exact ⟨hnd, lastLe_mono hlast (by have := pctBase_le_85 R i hR1 h2; omega)⟩
    · rw [if_neg hiR]
      have hit := runIter_trace env repoDir R i st hnd hlast
      rcases hri : runIter env repoDir R i st with ⟨st', b⟩
      rw [hri] at hit
      cases b
      · have hlast' : lastLe st'.trace (pctBase R (i + 1)) :=
          lastLe_of_getLast? (hit.2 rfl) (pctBase_step R i hR1 hR8 h1)
        exact ih (i + 1) st' (by omega) (by omega) hit.1.1 hlast'
      · exact ⟨hit.1.1, lastLe_mono hit.1.2
          (pctBase_add10_le_90 R i hR1 hR8 (by omega))⟩

/-- **C3 (amended).**  For retry limits 1 through 8, the progress
percentages reported through the callback, followed by the returned job's
final progress field, form a non-decreasing sequence for every
environment; at the permitted limits 9 and 10 the sequence can decrease
(see the counterexample), because the per-iteration stride
`int(70 / retry_limit)` drops below the 8 points an iteration spans. -/
theorem orchestrator_progress_monotone (env : OrchEnv) (repoDir : Str)
    (R : Nat) (hR1 : 1 ≤ R) (hR8 : R ≤ 8) :
    nondecreasing ((orchestratorRun env repoDir R).trace
      ++ [(orchestratorRun env repoDir R).progress]) = true := by
  rcases hc : env.cloneOk with e | u
  · simp only [orchestratorRun, hc]
    rfl
  · cases u
    rcases hb : env.branchOk with e | u
    · simp only [orchestratorRun, hc, hb]
      rfl
    · cases u
      rcases ha : env.analyzeOk with e | u
      · simp only [orchestratorRun, hc, hb, ha]
        rfl
      · cases u
        simp only [orchestratorRun, hc, hb, ha]
        have hloop := runLoop_trace env repoDir R hR1 hR8 (R + 1) 1
          { timeline := [], trace := [5, 10, 15], totalFailuresInitial := 0
            totalFixes := 0, proposals := [], ciFinal := CIStatus.FAILED }
          (by omega) (by omega) (by rfl)
          (by
            rw [pctBase_one]
            intro y hy
            simp at hy
            omega)
        rcases hlp : runLoop env repoDir R (R + 1) 1
            { timeline := [], trace := [5, 10, 15], totalFailuresInitial := 0
              totalFixes := 0, proposals := [], ciFinal := CIStatus.FAILED }
          with ⟨stL, b⟩
        rw [hlp] at hloop
        simp only at hloop
        have n1 := nondecr_append_one stL.trace 90 hloop.1 hloop.2
        have n2 := nondecr_append_one _ 100 n1.1
          (lastLe_of_getLast? n1.2 (by omega))
        have n3 := nondecr_append_one _ 100 n2.1
          (lastLe_of_getLast? n2.2 (by omega))
        split
        · exact n3.1
        · split <;> exact n3.1

/-- **C3 witness** of the amended monotonicity at retry limit 5 on the
first-pass environment. -/
theorem orchestrator_progress_monotone_witness :
    (1 ≤ 5 ∧ 5 ≤ 8) ∧
    nondecreasing ((orchestratorRun envFirstPass "/repo".data 5).trace
      ++ [(orchestratorRun envFirstPass "/repo".data 5).progress]) = true :=
  ⟨⟨by decide, by decide⟩,
    orchestrator_progress_monotone envFirstPass "/repo".data 5
      (by decide) (by decide)⟩

end HelixHeal
